import Mathlib

/-!
Verification of the sqliteDBManager access layer (sqlite3db namespace):
a shallow embedding, in Lean 4, of the migration manager, the schema
validator, and the transaction/savepoint state machine from
`src/migration.cpp`, `src/transaction.cpp`, `src/connection.cpp` and
`src/statement.cpp`, together with theorems about the embedded code.

Modelling conventions:
- SQLite result codes are natural numbers; the C++ mask `result & 0xFF`
  over a nonnegative `int` is written `result % 256`.
- C++ exceptions become explicit error values (`Except`, or an `Option`
  error component in a returned pair).
- The engine behind a connection is modelled where a claim needs it:
  for the transaction machine, a command trace plus a fault-injection
  list (`Conn`); for the migration manager, the `__migrations`
  bookkeeping table contents plus an abstract "rest of the database"
  value of type `α` that the migration up/down procedures act on.
-/

/-! ## SQLite result codes (sqlite3.h constants used by the sources) -/

def SQLITE_OK : Nat := 0

def SQLITE_CONSTRAINT : Nat := 19

def SQLITE_ROW : Nat := 100

def SQLITE_DONE : Nat := 101

/-! ## Error translation on the two execution paths

`Connection::execute` (connection.cpp lines 110-125) runs `sqlite3_exec`
and, on a non-OK result, throws `ConstraintException` when the result's
base code (`result & 0xFF`) is `SQLITE_CONSTRAINT`, else `QueryException`.

`Statement::execute` (statement.cpp lines 148-161) runs one
`sqlite3_step`; a result other than `SQLITE_DONE` or `SQLITE_ROW` throws
`ConstraintException` when the result equals `SQLITE_CONSTRAINT`
exactly (no masking of extended-code bits), else `QueryException`.
Otherwise it completes normally (and resets the statement). -/

/-- Outcome of an execution path, as classified by the error-translation
code: normal completion, `ConstraintException`, or `QueryException`,
each exception carrying the engine result code. -/
inductive ExecOutcome where
  | ok : ExecOutcome
  | constraintError (code : Nat) : ExecOutcome
  | queryError (code : Nat) : ExecOutcome
deriving DecidableEq, Repr

/-- Embedding of the result-code handling of `Connection::execute`
(connection.cpp lines 110-125): a non-OK result whose base code
(`result & 0xFF`, written `result % 256`) is `SQLITE_CONSTRAINT` throws
`ConstraintException`; any other non-OK result throws `QueryException`. -/
def Connection.execOutcome (result : Nat) : ExecOutcome :=
  if result ≠ SQLITE_OK then
    if result % 256 = SQLITE_CONSTRAINT then .constraintError result
    else .queryError result
  else .ok

/-- Embedding of the result handling of `Statement::execute`
(statement.cpp lines 148-161): a step result other than `SQLITE_DONE`
and other than `SQLITE_ROW` throws `ConstraintException` when it equals
`SQLITE_CONSTRAINT` exactly, else `QueryException`; a `SQLITE_DONE` or
`SQLITE_ROW` result completes normally. -/
def Statement.execOutcome (result : Nat) : ExecOutcome :=
  if result ≠ SQLITE_DONE ∧ result ≠ SQLITE_ROW then
    if result = SQLITE_CONSTRAINT then .constraintError result
    else .queryError result
  else .ok

/-! ## Schema validator (migration.cpp lines 184-312)

The validator accumulates requirements in three vectors and checks them
against the engine's catalog. The catalog queries
(`SELECT 1 FROM sqlite_master WHERE type='table' AND name=?`,
`PRAGMA table_info(t)`,
`SELECT 1 FROM sqlite_master WHERE type='index' AND tbl_name=? AND name=?`)
are modelled by lookups into a `Catalog` value describing the live
schema metadata. -/

/-- One row of `PRAGMA table_info`: column name (column 1 of the
pragma), declared type (column 2), and the NOT NULL marker (column 3). -/
structure ColumnInfo where
  name : String
  declType : String
  notNull : Bool
deriving DecidableEq, Repr

/-- One table of the engine's catalog: its name and its `PRAGMA
table_info` rows, in pragma output order. -/
structure TableInfo where
  name : String
  columns : List ColumnInfo
deriving DecidableEq, Repr

/-- The engine's schema metadata: tables with their columns, and
indexes as (tbl_name, index name) pairs, as `sqlite_master` exposes
them. -/
structure Catalog where
  tables : List TableInfo
  indexes : List (String × String)
deriving DecidableEq, Repr

/-- The catalog query behind the table check: `SELECT 1 FROM
sqlite_master WHERE type='table' AND name=?` steps a row iff a table of
that name exists. -/
def Catalog.tableExists (cat : Catalog) (name : String) : Bool :=
  cat.tables.any (fun t => t.name == name)

/-- The rows `PRAGMA table_info(tableName)` steps through: the columns
of the named table, and no rows at all when the table does not exist. -/
def Catalog.tableInfoRows (cat : Catalog) (tableName : String) : List ColumnInfo :=
  match cat.tables.find? (fun t => t.name == tableName) with
  | some t => t.columns
  | none => []

/-- The catalog query behind the index check: `SELECT 1 FROM
sqlite_master WHERE type='index' AND tbl_name=? AND name=?` steps a row
iff such an index exists. -/
def Catalog.indexExists (cat : Catalog) (tableName indexName : String) : Bool :=
  cat.indexes.any (fun i => i.1 == tableName && i.2 == indexName)

/-- `SchemaValidator::ColumnRequirement` (migration.hpp lines 253-258):
table, column, expected type (empty string = no type check), and the
NOT NULL flag. -/
structure ColumnRequirement where
  tableName : String
  columnName : String
  expectedType : String
  requireNotNull : Bool
deriving DecidableEq, Repr

/-- `SchemaValidator::ValidationError` (migration.hpp lines 203-206):
an error kind tag (the source's `type` field) and a human-readable
message. -/
structure ValidationError where
  errorType : String
  message : String
deriving DecidableEq, Repr

/-- `SchemaValidator` (migration.hpp lines 201-268): the three
requirement vectors. A table requirement is just the table name and an
index requirement the (table, index) name pair, as in the source's
single-field structs. -/
structure SchemaValidator where
  tableRequirements : List String
  columnRequirements : List ColumnRequirement
  indexRequirements : List (String × String)
deriving DecidableEq, Repr

/-- A freshly constructed `SchemaValidator`: empty requirement vectors. -/
def SchemaValidator.empty : SchemaValidator := ⟨[], [], []⟩

/-- `SchemaValidator::requireTable` (migration.cpp lines 184-187):
appends a table requirement. -/
def SchemaValidator.requireTable (v : SchemaValidator) (tableName : String) :
    SchemaValidator :=
  { v with tableRequirements := v.tableRequirements ++ [tableName] }

/-- `SchemaValidator::requireColumn` (migration.cpp lines 189-194):
unconditionally appends a new column requirement with the NOT NULL flag
false. -/
def SchemaValidator.requireColumn (v : SchemaValidator)
    (tableName columnName expectedType : String) : SchemaValidator :=
  { v with columnRequirements :=
      v.columnRequirements ++ [⟨tableName, columnName, expectedType, false⟩] }

/-- The scan inside `SchemaValidator::requireNotNull` (migration.cpp
lines 196-207): set the flag on the first existing requirement for the
same (table, column) pair, else append a fresh requirement with empty
expected type and the flag set. -/
def setNotNullOrAppend (tableName columnName : String) :
    List ColumnRequirement → List ColumnRequirement
  | [] => [⟨tableName, columnName, "", true⟩]
  | r :: rs =>
    if r.tableName = tableName ∧ r.columnName = columnName then
      { r with requireNotNull := true } :: rs
    else r :: setNotNullOrAppend tableName columnName rs

/-- `SchemaValidator::requireNotNull` (migration.cpp lines 196-207). -/
def SchemaValidator.requireNotNull (v : SchemaValidator)
    (tableName columnName : String) : SchemaValidator :=
  { v with columnRequirements :=
      setNotNullOrAppend tableName columnName v.columnRequirements }

/-- `SchemaValidator::requireIndex` (migration.cpp lines 209-213). -/
def SchemaValidator.requireIndex (v : SchemaValidator)
    (tableName indexName : String) : SchemaValidator :=
  { v with indexRequirements := v.indexRequirements ++ [(tableName, indexName)] }

/-- The table-requirement check of `validate` (migration.cpp lines
219-229): zero or one `missing_table` error. -/
def checkTable (cat : Catalog) (name : String) : List ValidationError :=
  if cat.tableExists name then []
  else [⟨"missing_table", "Required table '" ++ name ++ "' does not exist"⟩]

/-- Case-insensitive view of a string, as the source uppercases both
sides character by character with `std::toupper` before comparing
(migration.cpp lines 246-249). -/
def upperChars (s : String) : List Char :=
  s.data.map Char.toUpper

/-- Whether `needle` starts `hay`, character by character. -/
def charsPrefix : List Char → List Char → Bool
  | [], _ => true
  | _ :: _, [] => false
  | a :: as, b :: bs => a == b && charsPrefix as bs

/-- Whether `needle` occurs contiguously inside `hay`: the model of
`std::string::find(needle) != npos` (migration.cpp line 251). -/
def charsInfix (needle : List Char) : List Char → Bool
  | [] => needle.isEmpty
  | b :: bs => charsPrefix needle (b :: bs) || charsInfix needle bs

/-- The checks run on the matching `PRAGMA table_info` row once the
column is found (migration.cpp lines 241-270): a `wrong_type` error
when an expected type is given and its uppercase form is not a
substring of the uppercase declared type, then a `nullable` error when
NOT NULL is required but the catalog does not mark the column NOT NULL. -/
def checkFoundColumn (req : ColumnRequirement) (col : ColumnInfo) :
    List ValidationError :=
  (if req.expectedType ≠ "" then
    if charsInfix (upperChars req.expectedType) (upperChars col.declType) then []
    else
      [⟨"wrong_type",
        "Column '" ++ req.tableName ++ "." ++ req.columnName ++ "' has type '" ++
          col.declType ++ "', expected '" ++ req.expectedType ++ "'"⟩]
  else []) ++
  (if req.requireNotNull then
    if col.notNull then []
    else
      [⟨"nullable",
        "Column '" ++ req.tableName ++ "." ++ req.columnName ++
          "' should be NOT NULL"⟩]
  else [])

/-- The scan of `PRAGMA table_info` rows in `validate` (migration.cpp
lines 236-274): step until the row whose name matches, then break. The
while/break loop is the first-match search embedded here. -/
def findColumn (columnName : String) : List ColumnInfo → Option ColumnInfo
  | [] => none
  | col :: rest =>
    if col.name = columnName then some col else findColumn columnName rest

/-- The column-requirement check of `validate` (migration.cpp lines
232-283): find the column among the table's `PRAGMA table_info` rows;
absence yields a `missing_column` error, presence yields the type and
NOT NULL checks on the found row. -/
def checkColumn (cat : Catalog) (req : ColumnRequirement) : List ValidationError :=
  match findColumn req.columnName (cat.tableInfoRows req.tableName) with
  | some col => checkFoundColumn req col
  | none =>
    [⟨"missing_column",
      "Required column '" ++ req.tableName ++ "." ++ req.columnName ++
        "' does not exist"⟩]

/-- The index-requirement check of `validate` (migration.cpp lines
286-297): zero or one `missing_index` error. -/
def checkIndex (cat : Catalog) (req : String × String) : List ValidationError :=
  if cat.indexExists req.1 req.2 then []
  else
    [⟨"missing_index",
      "Required index '" ++ req.2 ++ "' on table '" ++ req.1 ++
        "' does not exist"⟩]

/-- `SchemaValidator::validate` (migration.cpp lines 215-300): one
errors vector, filled by three sequential loops - all table
requirements, then all column requirements, then all index
requirements, each in insertion order, never stopping early. -/
def SchemaValidator.validate (v : SchemaValidator) (cat : Catalog) :
    List ValidationError :=
  let errors := v.tableRequirements.foldl (fun acc r => acc ++ checkTable cat r) []
  let errors := v.columnRequirements.foldl (fun acc r => acc ++ checkColumn cat r) errors
  v.indexRequirements.foldl (fun acc r => acc ++ checkIndex cat r) errors

/-! ## Transaction / savepoint machine (transaction.cpp)

The engine behind a `Connection`, as the transaction machine uses it,
is modelled as the trace of SQL commands issued so far plus a
fault-injection list: executing a command appends it to the trace and
fails (with generic engine code 1, `SQLITE_ERROR`) exactly when the
command text is in the fault list. The C++ `Connection::execute` throw
becomes the optional error code in the returned pair. -/

/-- The connection as the transaction machine sees it: the commands
issued to the engine so far, and the commands the engine will reject
(fault injection, standing in for lock contention, constraint failures
on COMMIT, and so on). -/
structure Conn where
  trace : List String
  failing : List String
deriving DecidableEq, Repr

/-- Issue one SQL command: the engine receives it (trace it), then
either accepts it or reports engine error code 1. -/
def Conn.execute (c : Conn) (sql : String) : Conn × Option Nat :=
  ({ c with trace := c.trace ++ [sql] },
   if sql ∈ c.failing then some 1 else none)

/-- `TransactionException` (exceptions.hpp): a message and the original
engine error code (0 when none). -/
structure TransactionError where
  message : String
  code : Nat
deriving DecidableEq, Repr

/-- `Transaction` state (transaction.hpp lines 147-150): the `conn_`
pointer (null only after a move, modelled by `hasConn = false`) and the
`active_` flag, true until a successful commit or rollback. -/
structure Transaction where
  hasConn : Bool
  active : Bool
deriving DecidableEq, Repr

/-- `Transaction::commit` (transaction.cpp lines 76-87): on an
already-ended transaction throw "Transaction already ended"; otherwise
issue COMMIT, clearing `active_` only when the engine accepts it, and
rethrowing an engine failure as a `TransactionException` with the code. -/
def Transaction.commit (t : Transaction) (c : Conn) :
    Transaction × Conn × Option TransactionError :=
  if ¬ t.active then (t, c, some ⟨"Transaction already ended", 0⟩)
  else
    match Conn.execute c "COMMIT" with
    | (c2, none) => ({ t with active := false }, c2, none)
    | (c2, some code) => (t, c2, some ⟨"Failed to commit", code⟩)

/-- `Transaction::rollback` (transaction.cpp lines 89-100): same shape
as `commit` with the ROLLBACK command. -/
def Transaction.rollback (t : Transaction) (c : Conn) :
    Transaction × Conn × Option TransactionError :=
  if ¬ t.active then (t, c, some ⟨"Transaction already ended", 0⟩)
  else
    match Conn.execute c "ROLLBACK" with
    | (c2, none) => ({ t with active := false }, c2, none)
    | (c2, some code) => (t, c2, some ⟨"Failed to rollback", code⟩)

/-- `Transaction::~Transaction` (transaction.cpp lines 36-47): when
still active (and not moved-from), issue ROLLBACK and swallow any
failure; the return type has no error channel, so nothing can
propagate out of the destructor. -/
def Transaction.destroy (t : Transaction) (c : Conn) : Conn :=
  if t.active ∧ t.hasConn then (Conn.execute c "ROLLBACK").1
  else c

/-- `Transaction::Savepoint` state (transaction.hpp lines 177-181):
connection pointer, savepoint name, and the `active_` flag. -/
structure Savepoint where
  hasConn : Bool
  name : String
  active : Bool
deriving DecidableEq, Repr

/-- The public `Savepoint` constructor (transaction.cpp lines 111-120):
issue `SAVEPOINT name` unconditionally - there is no check that any
transaction is active - translating an engine failure into a
`TransactionException`. On success the savepoint starts active. -/
def Savepoint.create (c : Conn) (name : String) :
    Option Savepoint × Conn × Option TransactionError :=
  match Conn.execute c ("SAVEPOINT " ++ name) with
  | (c2, none) => (some ⟨true, name, true⟩, c2, none)
  | (c2, some code) => (none, c2, some ⟨"Failed to create savepoint", code⟩)

/-- `Transaction::savepoint` (transaction.cpp lines 102-107): on an
inactive transaction throw "Cannot create savepoint: transaction not
active" before any engine command; otherwise construct a `Savepoint`
on the connection. -/
def Transaction.savepoint (t : Transaction) (c : Conn) (name : String) :
    Option Savepoint × Conn × Option TransactionError :=
  if ¬ t.active then
    (none, c, some ⟨"Cannot create savepoint: transaction not active", 0⟩)
  else Savepoint.create c name

/-- `Transaction::Savepoint::~Savepoint` (transaction.cpp lines
122-134): when still active (and not moved-from), issue
`RELEASE SAVEPOINT name` - keeping the savepoint's effects - and
swallow any failure; no error channel exists in the return type. -/
def Savepoint.destroy (sp : Savepoint) (c : Conn) : Conn :=
  if sp.active ∧ sp.hasConn then
    (Conn.execute c ("RELEASE SAVEPOINT " ++ sp.name)).1
  else c

/-! ## Migration manager (migration.cpp lines 14-180)

The database, as the migration manager observes it, is the contents of
the `__migrations` bookkeeping table - a list of (version, description)
rows - plus the rest of the database abstracted as a value of type `α`.
A migration's up/down procedure acts on that `α` part and may fail
(the C++ procedure throwing), written `α → Except String α` with the
error carrying the exception's message.

`ensureMigrationTable` runs `CREATE TABLE IF NOT EXISTS __migrations
...`, which is idempotent; since the model's state always carries the
record list, it is the identity here.

Each migration unit runs inside its own `Transaction`: the up (or
down) procedure and its bookkeeping write either both take effect
(commit) or the state from before the unit is kept (the destructor's
rollback after a failure). The per-unit functions below return the
pre-unit state on failure, which is exactly that rollback. -/

/-- The database state the migration manager acts on: the
`__migrations` rows (version, description) and the rest of the
database. -/
structure DbState (α : Type) where
  records : List (Int × String)
  user : α
deriving DecidableEq, Repr

/-- `Migration` (migration.hpp lines 56-75): version, description, up
procedure, optional down procedure. -/
structure Migration (α : Type) where
  version : Int
  description : String
  up : α → Except String α
  down : Option (α → Except String α)

/-- `MigrationManager` (migration.hpp line 177): `std::map<int,
Migration>` keyed by version, modelled as a list that `add` keeps in
ascending version order with unique versions - the order a `std::map`
iterates in. -/
structure MigrationManager (α : Type) where
  migrations : List (Migration α)

/-- A `MigrationException` (exceptions.hpp): message and offending
version. -/
structure MigrationError where
  message : String
  version : Int
deriving DecidableEq, Repr

/-- Insertion into the version-keyed map: place the migration before
the first entry of larger or equal version (versions are unique when
reached through `add`). -/
def insertByVersion {α : Type} (m : Migration α) :
    List (Migration α) → List (Migration α)
  | [] => [m]
  | x :: xs =>
    if m.version ≤ x.version then m :: x :: xs else x :: insertByVersion m xs

/-- `MigrationManager::add` (migration.cpp lines 27-35): reject a
non-positive version, reject a duplicate version, else store the unit
in the version-keyed map. -/
def MigrationManager.add {α : Type} (mgr : MigrationManager α) (m : Migration α) :
    Except MigrationError (MigrationManager α) :=
  if m.version ≤ 0 then .error ⟨"Migration version must be positive", m.version⟩
  else if mgr.migrations.any (fun x => x.version == m.version) then
    .error ⟨"Duplicate migration version", m.version⟩
  else .ok ⟨insertByVersion m mgr.migrations⟩

/-- `MigrationManager::ensureMigrationTable` (migration.cpp lines
37-46): `CREATE TABLE IF NOT EXISTS __migrations (...)`, idempotent;
identity on the modelled state, which always carries the record list. -/
def ensureMigrationTable {α : Type} (db : DbState α) : DbState α := db

/-- The fold computing `SELECT MAX(version)` over the remaining rows,
starting from an accumulator. -/
def maxVer : List (Int × String) → Int → Int
  | [], acc => acc
  | r :: rs, acc => maxVer rs (max acc r.1)

/-- `MigrationManager::currentVersion` (migration.cpp lines 48-59):
ensure the bookkeeping table exists, then `SELECT MAX(version) FROM
__migrations` - 0 when the table is empty (the NULL aggregate), else
the maximum recorded version. -/
def MigrationManager.currentVersion {α : Type} (db : DbState α) : Int :=
  match (ensureMigrationTable db).records with
  | [] => 0
  | r :: rs => maxVer rs r.1

/-- `MigrationManager::latestVersion` (migration.cpp lines 61-66): 0
with no registered migrations, else the largest registered version
(`migrations_.rbegin()`, the last entry of the version-ordered map). -/
def MigrationManager.latestVersion {α : Type} (mgr : MigrationManager α) : Int :=
  match mgr.migrations.getLast? with
  | none => 0
  | some m => m.version

/-- `MigrationManager::recordMigration` (migration.cpp lines 85-90):
`INSERT INTO __migrations (version, description) VALUES (?, ?)`. The
version column is the primary key, so the insert fails with a
constraint error when a row with that version already exists. -/
def recordMigration {α : Type} (db : DbState α) (version : Int)
    (description : String) : Except String (DbState α) :=
  if db.records.any (fun r => r.1 == version) then
    .error "UNIQUE constraint failed: __migrations.version"
  else .ok { db with records := db.records ++ [(version, description)] }

/-- `MigrationManager::removeMigrationRecord` (migration.cpp lines
92-95): `DELETE FROM __migrations WHERE version = ?`. -/
def removeMigrationRecord {α : Type} (db : DbState α) (version : Int) :
    DbState α :=
  { db with records := db.records.filter (fun r => decide (r.1 ≠ version)) }

/-- Ascending insertion step for the `std::sort(toApply)` call
(migration.cpp line 115). -/
def insertAsc {α : Type} (m : Migration α) :
    List (Migration α) → List (Migration α)
  | [] => [m]
  | x :: xs =>
    if m.version ≤ x.version then m :: x :: xs else x :: insertAsc m xs

/-- `std::sort(toApply.begin(), toApply.end())` (migration.cpp line
115): sort the selected units into ascending version order. -/
def sortAscByVersion {α : Type} (l : List (Migration α)) : List (Migration α) :=
  l.foldr insertAsc []

/-- Descending insertion step for the `std::sort(..., greater)` call
(migration.cpp line 155). -/
def insertDesc {α : Type} (m : Migration α) :
    List (Migration α) → List (Migration α)
  | [] => [m]
  | x :: xs =>
    if m.version ≥ x.version then m :: x :: xs else x :: insertDesc m xs

/-- `std::sort(toRollback.begin(), toRollback.end(),
std::greater<int>())` (migration.cpp line 155): sort the selected units
into descending version order. -/
def sortDescByVersion {α : Type} (l : List (Migration α)) : List (Migration α) :=
  l.foldr insertDesc []

/-- One unit of the `applyTo` loop body inside its transaction
(migration.cpp lines 118-135): run the unit's up procedure, insert its
bookkeeping record, commit. On either failure the transaction's
destructor rolls the unit back - the caller keeps the pre-unit state -
and the error message is the underlying cause. -/
def applyUnit {α : Type} (m : Migration α) (db : DbState α) :
    Except String (DbState α) :=
  match m.up db.user with
  | .error e => .error e
  | .ok u =>
    match recordMigration { db with user := u } m.version m.description with
    | .error e => .error e
    | .ok db2 => .ok db2

/-- The `applyTo` loop (migration.cpp lines 118-136): apply each
selected unit in order; a unit failure rolls that unit back (the state
from before it is kept), wraps the cause in a `MigrationException`
carrying the offending version, and stops - no further unit is
attempted. The returned pair is the connection's state when `applyTo`
returns or throws, plus the thrown error if any. -/
def applyLoop {α : Type} : List (Migration α) → DbState α →
    DbState α × Option MigrationError
  | [], db => (db, none)
  | m :: rest, db =>
    match applyUnit m db with
    | .ok db2 => applyLoop rest db2
    | .error e => (db, some ⟨"Migration failed: " ++ e, m.version⟩)

/-- `MigrationManager::applyTo` (migration.cpp lines 101-137): ensure
the bookkeeping table, read the current version, select the registered
units with `current < version ≤ target`, sort them ascending, and run
the per-unit loop. -/
def MigrationManager.applyTo {α : Type} (mgr : MigrationManager α)
    (db : DbState α) (targetVersion : Int) :
    DbState α × Option MigrationError :=
  let db1 := ensureMigrationTable db
  let current := MigrationManager.currentVersion db1
  let toApply := sortAscByVersion (mgr.migrations.filter
    (fun m => decide (current < m.version ∧ m.version ≤ targetVersion)))
  applyLoop toApply db1

/-- `MigrationManager::apply` (migration.cpp lines 97-99):
`applyTo(conn, latestVersion())`. -/
def MigrationManager.apply {α : Type} (mgr : MigrationManager α)
    (db : DbState α) : DbState α × Option MigrationError :=
  mgr.applyTo db mgr.latestVersion

/-- The `rollbackTo` loop (migration.cpp lines 157-179): for each
selected unit in order, a missing down procedure throws "Migration has
no rollback function" for that version before any engine work;
otherwise, inside the unit's transaction, run the down procedure,
delete the unit's bookkeeping record, commit. A down failure rolls the
unit back and wraps the cause; either error stops the loop. -/
def rollbackLoop {α : Type} : List (Migration α) → DbState α →
    DbState α × Option MigrationError
  | [], db => (db, none)
  | m :: rest, db =>
    match m.down with
    | none => (db, some ⟨"Migration has no rollback function", m.version⟩)
    | some downFn =>
      match downFn db.user with
      | .error e => (db, some ⟨"Rollback failed: " ++ e, m.version⟩)
      | .ok u =>
        rollbackLoop rest (removeMigrationRecord { db with user := u } m.version)

/-- `MigrationManager::rollbackTo` (migration.cpp lines 139-180): a
no-op when `target ≥ current`; otherwise select the registered units
with `target < version ≤ current`, sort them descending, and run the
per-unit rollback loop. -/
def MigrationManager.rollbackTo {α : Type} (mgr : MigrationManager α)
    (db : DbState α) (targetVersion : Int) :
    DbState α × Option MigrationError :=
  let current := MigrationManager.currentVersion db
  if targetVersion ≥ current then (db, none)
  else
    let toRollback := sortDescByVersion (mgr.migrations.filter
      (fun m => decide (targetVersion < m.version ∧ m.version ≤ current)))
    rollbackLoop toRollback db

/-- The registered versions are strictly ascending, as the keys of the
source's `std::map<int, Migration>` are; `add` preserves this. -/
def VersionsAscending {α : Type} (mgr : MigrationManager α) : Prop :=
  mgr.migrations.Pairwise (fun a b => a.version < b.version)

/-- Sequential run of the up procedures of a list of units, observing
only the `α` part: `none` when some up procedure fails. Used to state
which procedures ran, in which order. -/
def runUps {α : Type} : List (Migration α) → α → Option α
  | [], u => some u
  | m :: rest, u =>
    match m.up u with
    | .ok u2 => runUps rest u2
    | .error _ => none

/-- Sequential run of the down procedures of a list of units, observing
only the `α` part: `none` when a unit lacks a down procedure or its
down procedure fails. -/
def runDowns {α : Type} : List (Migration α) → α → Option α
  | [], u => some u
  | m :: rest, u =>
    match m.down with
    | none => none
    | some downFn =>
      match downFn u with
      | .ok u2 => runDowns rest u2
      | .error _ => none

/-! ## Concrete fixtures

Small concrete migration sets over `α := Nat` (the abstract "rest of
the database" is a single counter the procedures act on), used to
evaluate the embedded operations on closed inputs. -/

/-- A two-unit migration set: version 1 and version 2, both ups
succeeding, both with down procedures. -/
def mgrTwo : MigrationManager Nat :=
  ⟨[⟨1, "one", fun n => .ok (n + 1), some (fun n => .ok (n - 1))⟩,
    ⟨2, "two", fun n => .ok (n * 10), some (fun n => .ok (n / 10))⟩]⟩

/-- A migration set whose version 2 up procedure fails. -/
def mgrFailingUp : MigrationManager Nat :=
  ⟨[⟨1, "one", fun n => .ok (n + 1), some (fun n => .ok (n - 1))⟩,
    ⟨2, "boom", fun _ => .error "up exploded", none⟩]⟩

/-- A three-unit migration set whose version 1 unit has no down
procedure while versions 2 and 3 do. -/
def mgrNoDownAtOne : MigrationManager Nat :=
  ⟨[⟨1, "one", fun n => .ok (n + 1), none⟩,
    ⟨2, "two", fun n => .ok (n + 2), some (fun n => .ok (n + 1))⟩,
    ⟨3, "three", fun n => .ok (n + 3), some (fun n => .ok (n + 1))⟩]⟩

/-- An empty database state: no bookkeeping rows, counter 0. -/
def dbEmpty : DbState Nat := ⟨[], 0⟩

/-- A database state recording versions 1, 2 and 3 as applied. -/
def dbAtThree : DbState Nat := ⟨[(1, "one"), (2, "two"), (3, "three")], 0⟩

/-! # Theorems -/

/-! ## C5: constraint detection on the two execution paths -/

/-- C5, counterexample. The claim says every execution path detects a
constraint error by the base code, ignoring extended-code bits. With
extended result codes enabled the engine reports, for a uniqueness
violation, `SQLITE_CONSTRAINT_UNIQUE = 2067 = 19 + 8 * 256`, whose base
code `2067 % 256 = 19` is the constraint code; yet `Statement::execute`
compares the result against `SQLITE_CONSTRAINT` exactly and throws the
generic `QueryException` there, not `ConstraintException`. -/
theorem statement_execute_misses_extended_constraint_code :
    Statement.execOutcome 2067 = .queryError 2067
    ∧ 2067 % 256 = SQLITE_CONSTRAINT
    ∧ Statement.execOutcome 2067 ≠ .constraintError 2067 := by
  decide

/-- C5, amended. `Connection::execute` classifies a non-OK result as a
constraint violation exactly when its base code (`result % 256`,
ignoring extended-code bits) is `SQLITE_CONSTRAINT`, and raises the
generic `QueryException` otherwise; `Statement::execute`, by contrast,
classifies as a constraint violation only a result equal to
`SQLITE_CONSTRAINT` exactly, so an extended constraint code raises the
generic error on that path. -/
theorem constraint_detection_per_path (result : Nat) (h : result ≠ SQLITE_OK) :
    (Connection.execOutcome result = .constraintError result ↔
      result % 256 = SQLITE_CONSTRAINT)
    ∧ (result % 256 ≠ SQLITE_CONSTRAINT →
        Connection.execOutcome result = .queryError result)
    ∧ (result ≠ SQLITE_DONE → result ≠ SQLITE_ROW →
        (Statement.execOutcome result = .constraintError result ↔
          result = SQLITE_CONSTRAINT))
    ∧ (result ≠ SQLITE_DONE → result ≠ SQLITE_ROW →
        result ≠ SQLITE_CONSTRAINT →
        Statement.execOutcome result = .queryError result) := by
  unfold Connection.execOutcome Statement.execOutcome
  rw [if_pos h]
  refine ⟨?_, ?_, ?_, ?_⟩
  · by_cases hc : result % 256 = SQLITE_CONSTRAINT <;> simp [hc]
  · intro hc; simp [hc]
  · intro hd hr
    rw [if_pos ⟨hd, hr⟩]
    by_cases hc : result = SQLITE_CONSTRAINT <;> simp [hc]
  · intro hd hr hc
    rw [if_pos ⟨hd, hr⟩]
    simp [hc]

/-- C5, witness: the amended theorem applied at the extended constraint
code 2067. -/
theorem constraint_detection_per_path_witness :
    (2067 : Nat) ≠ SQLITE_OK
    ∧ Connection.execOutcome 2067 = .constraintError 2067
    ∧ Statement.execOutcome 2067 = .queryError 2067 := by
  refine ⟨by decide, ?_, ?_⟩
  · exact (constraint_detection_per_path 2067 (by decide)).1.mpr (by decide)
  · exact (constraint_detection_per_path 2067 (by decide)).2.2.2
      (by decide) (by decide) (by decide)

/-! ## C6: what Statement::execute accepts silently -/

/-- C6, counterexample. The claim says `Statement::execute` succeeds
only when the step reports "done" and that a non-done outcome never
completes silently; but the source accepts `SQLITE_ROW` as well
(`result != SQLITE_DONE && result != SQLITE_ROW` guards the throw), so
a row-producing step completes silently. -/
theorem statement_execute_accepts_row_silently :
    Statement.execOutcome SQLITE_ROW = .ok ∧ SQLITE_ROW ≠ SQLITE_DONE := by
  decide

/-- C6, amended. `Statement::execute` completes normally exactly when
the single step reports `SQLITE_DONE` or `SQLITE_ROW`; every other step
outcome raises an error - `ConstraintException` when the result equals
the constraint code exactly, else `QueryException` - and never
completes silently. -/
theorem statement_execute_done_or_row (result : Nat) :
    (Statement.execOutcome result = .ok ↔
      result = SQLITE_DONE ∨ result = SQLITE_ROW)
    ∧ (result ≠ SQLITE_DONE → result ≠ SQLITE_ROW →
        Statement.execOutcome result ≠ .ok
        ∧ Statement.execOutcome result =
            (if result = SQLITE_CONSTRAINT then .constraintError result
             else .queryError result)) := by
  unfold Statement.execOutcome
  constructor
  · by_cases hd : result = SQLITE_DONE
    · simp [hd]
    · by_cases hr : result = SQLITE_ROW
      · simp [hr]
      · rw [if_pos ⟨hd, hr⟩]
        by_cases hc : result = SQLITE_CONSTRAINT
        · simp [hc]
          decide
        · simp [hc, hd, hr]
  · intro hd hr
    rw [if_pos ⟨hd, hr⟩]
    by_cases hc : result = SQLITE_CONSTRAINT <;> simp [hc]

/-- C6, witness: the amended theorem applied at the non-done, non-row
outcomes 19 (constraint) and 5 (busy), and at the two silent outcomes. -/
theorem statement_execute_done_or_row_witness :
    (19 : Nat) ≠ SQLITE_DONE
    ∧ (19 : Nat) ≠ SQLITE_ROW
    ∧ Statement.execOutcome 19 ≠ .ok
    ∧ Statement.execOutcome 5 ≠ .ok
    ∧ Statement.execOutcome SQLITE_DONE = .ok := by
  refine ⟨by decide, by decide, ?_, ?_, ?_⟩
  · exact ((statement_execute_done_or_row 19).2 (by decide) (by decide)).1
  · exact ((statement_execute_done_or_row 5).2 (by decide) (by decide)).1
  · exact (statement_execute_done_or_row SQLITE_DONE).1.mpr (Or.inl rfl)

/-! ## C4: destruction-time cleanup -/

/-- C4. A `Transaction` destroyed while still active issues exactly one
ROLLBACK command, and a `Savepoint` destroyed while still active issues
exactly one `RELEASE SAVEPOINT name` command (keeping its effects);
both destructors return the resulting connection state normally
whatever the engine answers - the fault list `c.failing` is universally
quantified here, so the case where the engine rejects the cleanup
command is covered, and the destructors' return type carries no error
channel at all: a cleanup failure is swallowed, never propagated. -/
theorem destructor_cleanup_is_silent (t : Transaction) (sp : Savepoint)
    (c : Conn) (ht : t.active = true) (htc : t.hasConn = true)
    (hs : sp.active = true) (hsc : sp.hasConn = true) :
    Transaction.destroy t c = (Conn.execute c "ROLLBACK").1
    ∧ (Transaction.destroy t c).trace = c.trace ++ ["ROLLBACK"]
    ∧ Savepoint.destroy sp c = (Conn.execute c ("RELEASE SAVEPOINT " ++ sp.name)).1
    ∧ (Savepoint.destroy sp c).trace
        = c.trace ++ ["RELEASE SAVEPOINT " ++ sp.name] := by
  unfold Transaction.destroy Savepoint.destroy Conn.execute
  simp [ht, htc, hs, hsc]

/-- C4, witness: a still-active transaction and savepoint destroyed on
a connection whose engine rejects both cleanup commands; the rollback
and release are still issued and nothing propagates. -/
theorem destructor_cleanup_is_silent_witness :
    (Transaction.destroy ⟨true, true⟩
        ⟨[], ["ROLLBACK", "RELEASE SAVEPOINT sp1"]⟩).trace = ["ROLLBACK"]
    ∧ (Savepoint.destroy ⟨true, "sp1", true⟩
        ⟨[], ["ROLLBACK", "RELEASE SAVEPOINT sp1"]⟩).trace
        = ["RELEASE SAVEPOINT sp1"] := by
  have h := destructor_cleanup_is_silent ⟨true, true⟩ ⟨true, "sp1", true⟩
    ⟨[], ["ROLLBACK", "RELEASE SAVEPOINT sp1"]⟩ rfl rfl rfl rfl
  exact ⟨h.2.1, h.2.2.2⟩

/-! ## C9: savepoint creation and the transaction-active check -/

/-- C9, counterexample. The claim says that whenever no transaction is
active, any savepoint creation fails with a `TransactionException`
rather than issuing a SAVEPOINT command. The check lives only in
`Transaction::savepoint`; the public `Savepoint` constructor performs
no transaction-active check at all. On a connection that has issued no
command whatsoever - in particular no BEGIN, so no transaction is
active - constructing a `Savepoint` directly issues the SAVEPOINT
command and completes without any error. -/
theorem savepoint_constructor_skips_transaction_check :
    (Savepoint.create ⟨[], []⟩ "sp1").2.2 = none
    ∧ (Savepoint.create ⟨[], []⟩ "sp1").2.1.trace = ["SAVEPOINT sp1"]
    ∧ (Savepoint.create ⟨[], []⟩ "sp1").1 = some ⟨true, "sp1", true⟩ := by
  decide

/-- C9, amended. Savepoint creation through `Transaction::savepoint` on
a transaction that is no longer active fails with a
`TransactionException` before any engine command is issued (the
connection state is returned unchanged); the public `Savepoint`
constructor itself performs no such check and issues the SAVEPOINT
command unconditionally. -/
theorem savepoint_via_transaction_requires_active (t : Transaction)
    (c : Conn) (name : String) (h : t.active = false) :
    Transaction.savepoint t c name =
      (none, c, some ⟨"Cannot create savepoint: transaction not active", 0⟩)
    ∧ (Savepoint.create c name).2.1.trace = c.trace ++ ["SAVEPOINT " ++ name] := by
  constructor
  · simp [Transaction.savepoint, h]
  · unfold Savepoint.create Conn.execute
    by_cases hm : ("SAVEPOINT " ++ name) ∈ c.failing <;> simp [hm]

/-- C9, witness: the amended theorem applied to an ended transaction on
a fresh connection. -/
theorem savepoint_via_transaction_requires_active_witness :
    (Transaction.mk true false).active = false
    ∧ Transaction.savepoint ⟨true, false⟩ ⟨[], []⟩ "sp1" =
        (none, ⟨[], []⟩,
          some ⟨"Cannot create savepoint: transaction not active", 0⟩) := by
  exact ⟨rfl,
    (savepoint_via_transaction_requires_active ⟨true, false⟩ ⟨[], []⟩ "sp1" rfl).1⟩

/-! ## C10: commit/rollback failure leaves the active flag unchanged -/

/-- C10. On an active transaction, `commit` (and `rollback`) clears the
active flag exactly when the engine accepts the command; when the
engine rejects it, the raised `TransactionException` leaves the
transaction value unchanged - still active - so a later destruction
still attempts the implicit ROLLBACK (shown for a failed commit: the
final trace is the COMMIT followed by the destructor's ROLLBACK). -/
theorem commit_rollback_failure_keeps_active (t : Transaction) (c : Conn)
    (ht : t.active = true) :
    ((t.commit c).1.active = false ↔ (t.commit c).2.2 = none)
    ∧ ((t.rollback c).1.active = false ↔ (t.rollback c).2.2 = none)
    ∧ ((t.commit c).2.2 ≠ none → (t.commit c).1 = t)
    ∧ ((t.rollback c).2.2 ≠ none → (t.rollback c).1 = t)
    ∧ (t.hasConn = true → (t.commit c).2.2 ≠ none →
        ((t.commit c).1.destroy (t.commit c).2.1).trace
          = c.trace ++ ["COMMIT", "ROLLBACK"]) := by
  unfold Transaction.commit Transaction.rollback
  by_cases hcm : "COMMIT" ∈ c.failing <;>
    by_cases hrb : "ROLLBACK" ∈ c.failing <;>
      simp [Conn.execute, ht, hcm, hrb, Transaction.destroy]
  all_goals intro htc
  all_goals simp [htc]

/-- C10, witness: an active transaction whose COMMIT the engine
rejects stays active, and its destruction still issues ROLLBACK. -/
theorem commit_rollback_failure_keeps_active_witness :
    (Transaction.mk true true).active = true
    ∧ ((Transaction.mk true true).commit ⟨[], ["COMMIT"]⟩).2.2 ≠ none
    ∧ ((Transaction.mk true true).commit ⟨[], ["COMMIT"]⟩).1 = ⟨true, true⟩
    ∧ (((Transaction.mk true true).commit ⟨[], ["COMMIT"]⟩).1.destroy
        ((Transaction.mk true true).commit ⟨[], ["COMMIT"]⟩).2.1).trace
        = ["COMMIT", "ROLLBACK"] := by
  have h := commit_rollback_failure_keeps_active ⟨true, true⟩ ⟨[], ["COMMIT"]⟩ rfl
  refine ⟨rfl, by decide, h.2.2.1 (by decide), h.2.2.2.2 rfl (by decide)⟩

/-! ## C7: column-requirement merging -/

/-- Helper: `requireNotNull`'s scan over a list holding no requirement
for the (table, column) pair appends a fresh flagged entry. -/
theorem setNotNullOrAppend_of_absent {l : List ColumnRequirement}
    {t c : String}
    (h : ∀ r ∈ l, ¬(r.tableName = t ∧ r.columnName = c)) :
    setNotNullOrAppend t c l = l ++ [⟨t, c, "", true⟩] := by
  induction l with
  | nil => rfl
  | cons r rs ih =>
    unfold setNotNullOrAppend
    rw [if_neg (h r (List.mem_cons_self r rs))]
    rw [ih (fun x hx => h x (List.mem_cons_of_mem r hx))]
    simp

/-- Helper: `requireNotNull`'s scan over a list whose only requirement
for the (table, column) pair is the final entry sets that entry's flag
in place. -/
theorem setNotNullOrAppend_of_present_last {l : List ColumnRequirement}
    {t c ty : String} {b : Bool}
    (h : ∀ r ∈ l, ¬(r.tableName = t ∧ r.columnName = c)) :
    setNotNullOrAppend t c (l ++ [⟨t, c, ty, b⟩]) = l ++ [⟨t, c, ty, true⟩] := by
  induction l with
  | nil =>
    unfold setNotNullOrAppend
    simp
  | cons r rs ih =>
    rw [List.cons_append]
    unfold setNotNullOrAppend
    rw [if_neg (h r (List.mem_cons_self r rs))]
    rw [ih (fun x hx => h x (List.mem_cons_of_mem r hx))]
    simp

/-- C7, counterexample. The claim says the two registration orders both
yield a single merged entry per (table, column) pair; but
`requireColumn` always appends, so `requireNotNull` followed by
`requireColumn` leaves two distinct entries for the same pair and no
entry carrying both the expected type and the flag. -/
theorem require_not_null_then_require_column_duplicates :
    ((SchemaValidator.empty.requireNotNull "users" "name").requireColumn
        "users" "name" "TEXT").columnRequirements
      = [⟨"users", "name", "", true⟩, ⟨"users", "name", "TEXT", false⟩]
    ∧ (((SchemaValidator.empty.requireNotNull "users" "name").requireColumn
        "users" "name" "TEXT").columnRequirements.countP
          (fun r => r.tableName == "users" && r.columnName == "name")) = 2 := by
  decide

/-- C7, amended. When no requirement for the (table, column) pair
exists yet, `requireColumn` followed by `requireNotNull` merges into
one entry carrying both the expected type and the not-null flag; in
the opposite order, `requireNotNull` appends a flagged entry with empty
type and the later `requireColumn` appends a second, unflagged entry
for the same pair - the merge is one-directional, not order-independent. -/
theorem column_requirement_merge_one_directional (v : SchemaValidator)
    (t c ty : String)
    (h : ∀ r ∈ v.columnRequirements, ¬(r.tableName = t ∧ r.columnName = c)) :
    ((v.requireColumn t c ty).requireNotNull t c).columnRequirements
      = v.columnRequirements ++ [⟨t, c, ty, true⟩]
    ∧ ((v.requireNotNull t c).requireColumn t c ty).columnRequirements
      = v.columnRequirements ++ [⟨t, c, "", true⟩, ⟨t, c, ty, false⟩] := by
  constructor
  · show setNotNullOrAppend t c (v.columnRequirements ++ [⟨t, c, ty, false⟩])
        = v.columnRequirements ++ [⟨t, c, ty, true⟩]
    exact setNotNullOrAppend_of_present_last h
  · show setNotNullOrAppend t c v.columnRequirements ++ [⟨t, c, ty, false⟩]
        = v.columnRequirements ++ [⟨t, c, "", true⟩, ⟨t, c, ty, false⟩]
    rw [setNotNullOrAppend_of_absent h]
    simp

/-- C7, witness: the amended theorem applied to the empty validator and
the pair ("users", "name"). -/
theorem column_requirement_merge_one_directional_witness :
    (∀ r ∈ SchemaValidator.empty.columnRequirements,
      ¬(r.tableName = "users" ∧ r.columnName = "name"))
    ∧ ((SchemaValidator.empty.requireColumn "users" "name" "TEXT").requireNotNull
        "users" "name").columnRequirements
      = [⟨"users", "name", "TEXT", true⟩] := by
  refine ⟨by decide, ?_⟩
  exact (column_requirement_merge_one_directional SchemaValidator.empty
    "users" "name" "TEXT" (by decide)).1

/-! ## C8: validate checks everything, in a deterministic order -/

/-- Helper: the error-accumulating fold of `validate` appends each
requirement's errors after the initial accumulator, in requirement
order. -/
theorem foldl_append_errors {β : Type} (f : β → List ValidationError)
    (l : List β) (init : List ValidationError) :
    l.foldl (fun acc r => acc ++ f r) init = init ++ (l.map f).flatten := by
  induction l generalizing init with
  | nil => simp
  | cons r rs ih => simp [ih, List.append_assoc]

/-- Helper: a table check only emits errors of kind missing_table. -/
theorem checkTable_kinds (cat : Catalog) (r : String) :
    ∀ e ∈ checkTable cat r, e.errorType = "missing_table" := by
  unfold checkTable
  split <;> simp

/-- Helper: a column check only emits errors of kind missing_column,
wrong_type or nullable. -/
theorem checkColumn_kinds (cat : Catalog) (r : ColumnRequirement) :
    ∀ e ∈ checkColumn cat r,
      e.errorType = "missing_column" ∨ e.errorType = "wrong_type"
        ∨ e.errorType = "nullable" := by
  unfold checkColumn
  split
  · unfold checkFoundColumn
    intro e he
    rcases List.mem_append.mp he with h1 | h2
    · revert h1
      split
      · split <;> simp <;> rintro rfl <;> simp
      · simp
    · revert h2
      split
      · split <;> simp <;> rintro rfl <;> simp
      · simp
  · simp

/-- Helper: an index check only emits errors of kind missing_index. -/
theorem checkIndex_kinds (cat : Catalog) (r : String × String) :
    ∀ e ∈ checkIndex cat r, e.errorType = "missing_index" := by
  unfold checkIndex
  split <;> simp

/-- C8. `validate` returns the table-requirement errors first, then the
column-requirement errors, then the index-requirement errors, each
group in requirement-insertion order, with every requirement's errors
present (no short-circuiting: the result is empty exactly when every
single requirement checks clean), and every emitted error has one of
the five kinds missing_table, missing_column, wrong_type, nullable,
missing_index. -/
theorem validate_ordered_complete_kinds (v : SchemaValidator) (cat : Catalog) :
    v.validate cat
      = (v.tableRequirements.map (checkTable cat)).flatten
        ++ (v.columnRequirements.map (checkColumn cat)).flatten
        ++ (v.indexRequirements.map (checkIndex cat)).flatten
    ∧ (v.validate cat = [] ↔
        (∀ r ∈ v.tableRequirements, checkTable cat r = [])
        ∧ (∀ r ∈ v.columnRequirements, checkColumn cat r = [])
        ∧ (∀ r ∈ v.indexRequirements, checkIndex cat r = []))
    ∧ (∀ e ∈ v.validate cat,
        e.errorType ∈ ["missing_table", "missing_column", "wrong_type",
          "nullable", "missing_index"]) := by
  have hgroups : v.validate cat
      = (v.tableRequirements.map (checkTable cat)).flatten
        ++ (v.columnRequirements.map (checkColumn cat)).flatten
        ++ (v.indexRequirements.map (checkIndex cat)).flatten := by
    unfold SchemaValidator.validate
    rw [foldl_append_errors, foldl_append_errors, foldl_append_errors]
    simp [List.append_assoc]
  refine ⟨hgroups, ?_, ?_⟩
  · rw [hgroups]
    simp only [List.append_eq_nil, List.flatten_eq_nil_iff, List.mem_map]
    constructor
    · rintro ⟨⟨ht, hc⟩, hi⟩
      exact ⟨fun r hr => ht _ ⟨r, hr, rfl⟩,
             fun r hr => hc _ ⟨r, hr, rfl⟩,
             fun r hr => hi _ ⟨r, hr, rfl⟩⟩
    · rintro ⟨ht, hc, hi⟩
      exact ⟨⟨fun x ⟨r, hr, he⟩ => he ▸ ht r hr,
              fun x ⟨r, hr, he⟩ => he ▸ hc r hr⟩,
             fun x ⟨r, hr, he⟩ => he ▸ hi r hr⟩
  · intro e he
    rw [hgroups] at he
    simp only [List.mem_append, List.mem_flatten, List.mem_map] at he
    rcases he with (⟨x, ⟨r, hr, hx⟩, hex⟩ | ⟨x, ⟨r, hr, hx⟩, hex⟩) | ⟨x, ⟨r, hr, hx⟩, hex⟩
    · have := checkTable_kinds cat r e (hx ▸ hex)
      simp [this]
    · have := checkColumn_kinds cat r e (hx ▸ hex)
      rcases this with h | h | h <;> simp [h]
    · have := checkIndex_kinds cat r e (hx ▸ hex)
      simp [this]

/-- C8, witness: the theorem applied to the spec's two-requirement
scenario - table "posts" missing, column "users.name" missing against a
catalog holding only users(id) - returning exactly the two errors in
requirement order, plus the kind fact for the first error obtained from
the theorem. -/
theorem validate_ordered_complete_kinds_witness :
    ((SchemaValidator.empty.requireTable "posts").requireColumn
        "users" "name" "").validate ⟨[⟨"users", [⟨"id", "INTEGER", true⟩]⟩], []⟩
      = [⟨"missing_table", "Required table 'posts' does not exist"⟩,
         ⟨"missing_column", "Required column 'users.name' does not exist"⟩]
    ∧ (⟨"missing_table", "Required table 'posts' does not exist"⟩ :
        ValidationError).errorType
        ∈ ["missing_table", "missing_column", "wrong_type", "nullable",
           "missing_index"] := by
  refine ⟨by decide, ?_⟩
  exact (validate_ordered_complete_kinds
      ((SchemaValidator.empty.requireTable "posts").requireColumn "users" "name" "")
      ⟨[⟨"users", [⟨"id", "INTEGER", true⟩]⟩], []⟩).2.2
    ⟨"missing_table", "Required table 'posts' does not exist"⟩ (by decide)

/-! ## Migration helper lemmas -/

/-- The MAX fold dominates its accumulator. -/
theorem maxVer_init_le (l : List (Int × String)) (acc : Int) :
    acc ≤ maxVer l acc := by
  induction l generalizing acc with
  | nil => exact le_refl acc
  | cons r rs ih => exact le_trans (le_max_left acc r.1) (ih (max acc r.1))

/-- The MAX fold dominates every listed version. -/
theorem maxVer_mem_le {l : List (Int × String)} {r : Int × String}
    (acc : Int) (h : r ∈ l) : r.1 ≤ maxVer l acc := by
  induction l generalizing acc with
  | nil => cases h
  | cons x xs ih =>
    rcases List.mem_cons.mp h with h | h
    · subst h
      exact le_trans (le_max_right acc r.1) (maxVer_init_le xs (max acc r.1))
    · exact ih (max acc x.1) h

/-- The MAX fold returns its accumulator or some listed version. -/
theorem maxVer_cases (l : List (Int × String)) (acc : Int) :
    maxVer l acc = acc ∨ ∃ r ∈ l, maxVer l acc = r.1 := by
  induction l generalizing acc with
  | nil => exact Or.inl rfl
  | cons x xs ih =>
    rcases ih (max acc x.1) with h | ⟨r, hr, he⟩
    · rcases max_cases acc x.1 with ⟨hm, _⟩ | ⟨hm, _⟩
      · exact Or.inl (by rw [maxVer, h, hm])
      · exact Or.inr ⟨x, List.mem_cons_self x xs, by rw [maxVer, h, hm]⟩
    · exact Or.inr ⟨r, List.mem_cons_of_mem x hr, by rw [maxVer, he]⟩

/-- Every recorded version is at most the current version. -/
theorem le_currentVersion {α : Type} (db : DbState α) (r : Int × String)
    (h : r ∈ db.records) : r.1 ≤ MigrationManager.currentVersion db := by
  unfold MigrationManager.currentVersion ensureMigrationTable
  cases hdb : db.records with
  | nil => rw [hdb] at h; cases h
  | cons x xs =>
    rw [hdb] at h
    show r.1 ≤ maxVer xs x.1
    rcases List.mem_cons.mp h with h | h
    · subst h
      exact maxVer_init_le xs r.1
    · exact maxVer_mem_le x.1 h

/-- On a nonempty record list the current version is some recorded
version. -/
theorem currentVersion_mem {α : Type} (db : DbState α)
    (hne : db.records ≠ []) :
    ∃ r ∈ db.records, MigrationManager.currentVersion db = r.1 := by
  unfold MigrationManager.currentVersion ensureMigrationTable
  cases hdb : db.records with
  | nil => exact absurd hdb hne
  | cons x xs =>
    show ∃ r ∈ x :: xs, maxVer xs x.1 = r.1
    rcases maxVer_cases xs x.1 with h | ⟨r, hr, he⟩
    · exact ⟨x, List.mem_cons_self x xs, h⟩
    · exact ⟨r, List.mem_cons_of_mem x hr, he⟩

/-- Sorting an already strictly-ascending unit list ascending is the
identity: the `std::sort` in `applyTo` re-sorts the key-ordered output
of the version-keyed map. -/
theorem sortAscByVersion_of_pairwise {α : Type} {l : List (Migration α)}
    (h : l.Pairwise (fun a b => a.version < b.version)) :
    sortAscByVersion l = l := by
  induction l with
  | nil => rfl
  | cons m rest ih =>
    rw [List.pairwise_cons] at h
    show insertAsc m (sortAscByVersion rest) = m :: rest
    rw [ih h.2]
    cases rest with
    | nil => rfl
    | cons x xs =>
      unfold insertAsc
      rw [if_pos (le_of_lt (h.1 x (List.mem_cons_self x xs)))]

/-- Inserting below every element of a list descending puts the element
at the end. -/
theorem insertDesc_of_forall_lt {α : Type} {m : Migration α}
    {l : List (Migration α)} (h : ∀ y ∈ l, m.version < y.version) :
    insertDesc m l = l ++ [m] := by
  induction l with
  | nil => rfl
  | cons x xs ih =>
    unfold insertDesc
    rw [if_neg (not_le.mpr (h x (List.mem_cons_self x xs)))]
    rw [ih (fun y hy => h y (List.mem_cons_of_mem x hy))]
    rfl

/-- Sorting a strictly-ascending unit list descending reverses it: the
descending `std::sort` in `rollbackTo` reverses the key-ordered output
of the version-keyed map. -/
theorem sortDescByVersion_of_pairwise {α : Type} {l : List (Migration α)}
    (h : l.Pairwise (fun a b => a.version < b.version)) :
    sortDescByVersion l = l.reverse := by
  induction l with
  | nil => rfl
  | cons m rest ih =>
    rw [List.pairwise_cons] at h
    show insertDesc m (sortDescByVersion rest) = (m :: rest).reverse
    rw [ih h.2]
    rw [insertDesc_of_forall_lt (fun y hy => h.1 y (List.mem_reverse.mp hy))]
    simp

/-- The highest registered version is the version of some registered
unit (when any unit is registered). -/
theorem latestVersion_mem {α : Type} (mgr : MigrationManager α)
    (h : mgr.migrations ≠ []) :
    ∃ m ∈ mgr.migrations, m.version = mgr.latestVersion := by
  have hg := List.getLast?_eq_getLast_of_ne_nil h
  refine ⟨mgr.migrations.getLast h, List.getLast_mem h, ?_⟩
  unfold MigrationManager.latestVersion
  rw [hg]

/-- A successful bookkeeping insert appends exactly one row. -/
theorem recordMigration_ok {α : Type} {db db2 : DbState α} {v : Int}
    {d : String} (h : recordMigration db v d = .ok db2) :
    db2 = { db with records := db.records ++ [(v, d)] } := by
  unfold recordMigration at h
  by_cases hany : (db.records.any (fun r => r.1 == v)) = true
  · rw [if_pos hany] at h; cases h
  · rw [if_neg hany] at h
    injection h with h2
    exact h2.symm

/-- After a successful up procedure, the unit reduces to its
bookkeeping insert. -/
theorem applyUnit_eq_up_ok {α : Type} (m : Migration α) (db : DbState α)
    (u : α) (h : m.up db.user = .ok u) :
    applyUnit m db = recordMigration { db with user := u } m.version m.description := by
  unfold applyUnit
  rw [h]
  show (match recordMigration { db with user := u } m.version m.description with
        | .error e => .error e
        | .ok db2 => .ok db2)
      = recordMigration { db with user := u } m.version m.description
  cases recordMigration { db with user := u } m.version m.description with
  | error e => rfl
  | ok dbr => rfl

/-- A failed up procedure fails the unit with its cause. -/
theorem applyUnit_eq_up_error {α : Type} (m : Migration α) (db : DbState α)
    (e : String) (h : m.up db.user = .error e) : applyUnit m db = .error e := by
  unfold applyUnit
  rw [h]

/-- A successfully committed unit ran its up procedure on the pre-unit
state and appended exactly its own bookkeeping row. -/
theorem applyUnit_ok {α : Type} {m : Migration α} {db db2 : DbState α}
    (h : applyUnit m db = .ok db2) :
    m.up db.user = .ok db2.user
    ∧ db2.records = db.records ++ [(m.version, m.description)] := by
  cases hup : m.up db.user with
  | error e => rw [applyUnit_eq_up_error m db e hup] at h; cases h
  | ok u =>
    rw [applyUnit_eq_up_ok m db u hup] at h
    have hr := recordMigration_ok h
    subst hr
    exact ⟨rfl, rfl⟩

/-- A fully successful run of the apply loop appends one bookkeeping
row per unit, in list order, and runs exactly the listed up procedures
in that order. -/
theorem applyLoop_ok {α : Type} {l : List (Migration α)} {db db' : DbState α}
    (h : applyLoop l db = (db', none)) :
    db'.records = db.records ++ l.map (fun m => (m.version, m.description))
    ∧ runUps l db.user = some db'.user := by
  induction l generalizing db with
  | nil =>
    unfold applyLoop at h
    rw [Prod.mk.injEq] at h
    obtain ⟨h1, _⟩ := h
    subst h1
    exact ⟨by simp, rfl⟩
  | cons m rest ih =>
    unfold applyLoop at h
    cases hu : applyUnit m db with
    | error e => rw [hu] at h; simp [Prod.mk.injEq] at h
    | ok db2 =>
      rw [hu] at h
      obtain ⟨h1, h2⟩ := ih h
      obtain ⟨hup, hrec⟩ := applyUnit_ok hu
      constructor
      · rw [h1, hrec]; simp
      · show runUps (m :: rest) db.user = some db'.user
        unfold runUps
        rw [hup]
        exact h2

/-- A failed run of the apply loop splits the list at the failing unit:
the prefix ran clean, the failing unit failed on the returned (rolled
back) state, and the raised error wraps the cause and carries the
failing unit's version. -/
theorem applyLoop_err {α : Type} {l : List (Migration α)} {db db' : DbState α}
    {err : MigrationError} (h : applyLoop l db = (db', some err)) :
    ∃ pre m post, l = pre ++ m :: post
      ∧ applyLoop pre db = (db', none)
      ∧ ∃ cause, applyUnit m db' = .error cause
          ∧ err = ⟨"Migration failed: " ++ cause, m.version⟩ := by
  induction l generalizing db with
  | nil => unfold applyLoop at h; simp [Prod.mk.injEq] at h
  | cons m rest ih =>
    unfold applyLoop at h
    cases hu : applyUnit m db with
    | ok db2 =>
      rw [hu] at h
      obtain ⟨pre, mf, post, hsplit, hpre, cause, hcause, herr⟩ := ih h
      refine ⟨m :: pre, mf, post, by rw [hsplit]; rfl, ?_, cause, hcause, herr⟩
      show applyLoop (m :: pre) db = (db', none)
      unfold applyLoop
      rw [hu]
      exact hpre
    | error e =>
      rw [hu] at h
      rw [Prod.mk.injEq] at h
      obtain ⟨h1, h2⟩ := h
      subst h1
      injection h2 with h3
      exact ⟨[], m, rest, rfl, rfl, e, hu, h3.symm⟩

/-- A unit with no down procedure halts the rollback loop with the
"no rollback" error for its version, before any state change. -/
theorem rollbackLoop_cons_none {α : Type} (m : Migration α)
    (rest : List (Migration α)) (db : DbState α) (h : m.down = none) :
    rollbackLoop (m :: rest) db
      = (db, some ⟨"Migration has no rollback function", m.version⟩) := by
  unfold rollbackLoop
  rw [h]

/-- A failing down procedure halts the rollback loop with the wrapped
cause, keeping the pre-unit state (the transaction's rollback). -/
theorem rollbackLoop_cons_some_err {α : Type} (m : Migration α)
    (rest : List (Migration α)) (db : DbState α) (f : α → Except String α)
    (e : String) (hd : m.down = some f) (hf : f db.user = .error e) :
    rollbackLoop (m :: rest) db
      = (db, some ⟨"Rollback failed: " ++ e, m.version⟩) := by
  unfold rollbackLoop
  rw [hd]
  show (match f db.user with
        | .error e => (db, some ⟨"Rollback failed: " ++ e, m.version⟩)
        | .ok u =>
          rollbackLoop rest (removeMigrationRecord { db with user := u } m.version))
      = (db, some ⟨"Rollback failed: " ++ e, m.version⟩)
  rw [hf]

/-- A successful down procedure deletes the unit's bookkeeping record,
commits, and continues with the rest. -/
theorem rollbackLoop_cons_some_ok {α : Type} (m : Migration α)
    (rest : List (Migration α)) (db : DbState α) (f : α → Except String α)
    (u : α) (hd : m.down = some f) (hf : f db.user = .ok u) :
    rollbackLoop (m :: rest) db
      = rollbackLoop rest (removeMigrationRecord { db with user := u } m.version) := by
  conv_lhs => unfold rollbackLoop
  rw [hd]
  show (match f db.user with
        | .error e => (db, some ⟨"Rollback failed: " ++ e, m.version⟩)
        | .ok u =>
          rollbackLoop rest (removeMigrationRecord { db with user := u } m.version))
      = rollbackLoop rest (removeMigrationRecord { db with user := u } m.version)
  rw [hf]

/-- A fully successful run of the rollback loop requires a down
procedure on every unit, deletes exactly the listed versions from the
bookkeeping table (all other records untouched), and runs exactly the
listed down procedures in list order. -/
theorem rollbackLoop_ok {α : Type} {l : List (Migration α)} {db db' : DbState α}
    (h : rollbackLoop l db = (db', none)) :
    (∀ m ∈ l, m.down ≠ none)
    ∧ db'.records = db.records.filter
        (fun r => decide (r.1 ∉ l.map (fun m => m.version)))
    ∧ runDowns l db.user = some db'.user := by
  induction l generalizing db with
  | nil =>
    unfold rollbackLoop at h
    rw [Prod.mk.injEq] at h
    obtain ⟨h1, -⟩ := h
    subst h1
    refine ⟨by simp, ?_, rfl⟩
    simp
  | cons m rest ih =>
    cases hd : m.down with
    | none =>
      rw [rollbackLoop_cons_none m rest db hd] at h
      simp [Prod.mk.injEq] at h
    | some f =>
      cases hf : f db.user with
      | error e =>
        rw [rollbackLoop_cons_some_err m rest db f e hd hf] at h
        simp [Prod.mk.injEq] at h
      | ok u =>
        rw [rollbackLoop_cons_some_ok m rest db f u hd hf] at h
        obtain ⟨hdowns, hrecs, hruns⟩ := ih h
        refine ⟨?_, ?_, ?_⟩
        · intro x hx
          rcases List.mem_cons.mp hx with hx | hx
          · subst hx; simp [hd]
          · exact hdowns x hx
        · rw [hrecs]
          show ((db.records.filter (fun r => decide (r.1 ≠ m.version))).filter
              (fun r => decide (r.1 ∉ rest.map (fun m => m.version))))
            = db.records.filter
                (fun r => decide (r.1 ∉ (m :: rest).map (fun m => m.version)))
          rw [List.filter_filter]
          refine List.filter_congr ?_
          intro r _
          by_cases h1 : r.1 = m.version <;>
            by_cases h2 : r.1 ∈ rest.map (fun mm => mm.version) <;>
              simp [List.mem_cons, h1, h2]
        · show runDowns (m :: rest) db.user = some db'.user
          unfold runDowns
          rw [hd]
          show (match f db.user with
                | .ok u2 => runDowns rest u2
                | .error _ => none) = some db'.user
          rw [hf]
          exact hruns

/-- A failed run of the rollback loop splits the list at the failing
unit: the prefix ran clean, the error carries the failing unit's
version, and a missing down procedure carries the "no rollback"
message. -/
theorem rollbackLoop_err {α : Type} {l : List (Migration α)} {db db' : DbState α}
    {err : MigrationError} (h : rollbackLoop l db = (db', some err)) :
    ∃ pre m post, l = pre ++ m :: post
      ∧ rollbackLoop pre db = (db', none)
      ∧ err.version = m.version
      ∧ ((m.down = none ∧ err.message = "Migration has no rollback function")
          ∨ ∃ f e, m.down = some f ∧ f db'.user = .error e
              ∧ err.message = "Rollback failed: " ++ e) := by
  induction l generalizing db with
  | nil => unfold rollbackLoop at h; simp [Prod.mk.injEq] at h
  | cons m rest ih =>
    cases hd : m.down with
    | none =>
      rw [rollbackLoop_cons_none m rest db hd] at h
      rw [Prod.mk.injEq] at h
      obtain ⟨h1, h2⟩ := h
      subst h1
      injection h2 with h3
      subst h3
      exact ⟨[], m, rest, rfl, rfl, rfl, Or.inl ⟨hd, rfl⟩⟩
    | some f =>
      cases hf : f db.user with
      | error e =>
        rw [rollbackLoop_cons_some_err m rest db f e hd hf] at h
        rw [Prod.mk.injEq] at h
        obtain ⟨h1, h2⟩ := h
        subst h1
        injection h2 with h3
        subst h3
        exact ⟨[], m, rest, rfl, rfl, rfl, Or.inr ⟨f, e, hd, hf, rfl⟩⟩
      | ok u =>
        rw [rollbackLoop_cons_some_ok m rest db f u hd hf] at h
        obtain ⟨pre, mf, post, hsplit, hpre, hver, hdisj⟩ := ih h
        refine ⟨m :: pre, mf, post, by rw [hsplit]; rfl, ?_, hver, hdisj⟩
        rw [rollbackLoop_cons_some_ok m pre db f u hd hf]
        exact hpre

/-! ## C1: applyTo applies exactly the pending units, in ascending order -/

/-- C1. A successful `applyTo(conn, target)` appends to the bookkeeping
table exactly one record per registered unit with
`current < version ≤ target`, in ascending version order, and runs
exactly those units' up procedures in that order (each unit inside its
own transaction, per `applyUnit`); consequently every such version has
a bookkeeping record afterwards, and - under the spec's invariant that
the current version is nonnegative and at most the highest registered
version - a successful `apply(conn)` (that is, `applyTo` at
`latestVersion()`) leaves `currentVersion(conn)` equal to
`latestVersion()`. -/
theorem applyTo_applies_exactly_pending {α : Type}
    (mgr : MigrationManager α) (db db' : DbState α) (target : Int)
    (hs : VersionsAscending mgr)
    (h : mgr.applyTo db target = (db', none)) :
    db'.records = db.records ++
      (mgr.migrations.filter (fun m =>
        decide (MigrationManager.currentVersion db < m.version
          ∧ m.version ≤ target))).map (fun m => (m.version, m.description))
    ∧ runUps (mgr.migrations.filter (fun m =>
        decide (MigrationManager.currentVersion db < m.version
          ∧ m.version ≤ target))) db.user = some db'.user
    ∧ (∀ m ∈ mgr.migrations,
        MigrationManager.currentVersion db < m.version → m.version ≤ target →
        (m.version, m.description) ∈ db'.records)
    ∧ (target = mgr.latestVersion →
        0 ≤ MigrationManager.currentVersion db →
        MigrationManager.currentVersion db ≤ mgr.latestVersion →
        MigrationManager.currentVersion db' = mgr.latestVersion) := by
  have hpf : (mgr.migrations.filter (fun m =>
      decide (MigrationManager.currentVersion db < m.version
        ∧ m.version ≤ target))).Pairwise (fun a b => a.version < b.version) :=
    List.Pairwise.sublist (List.filter_sublist mgr.migrations) hs
  simp only [MigrationManager.applyTo, ensureMigrationTable] at h
  rw [sortAscByVersion_of_pairwise hpf] at h
  obtain ⟨hrec, hrun⟩ := applyLoop_ok h
  refine ⟨hrec, hrun, ?_, ?_⟩
  · intro m hm h1 h2
    rw [hrec]
    refine List.mem_append_right _ ?_
    refine List.mem_map_of_mem _ (List.mem_filter.mpr ⟨hm, ?_⟩)
    simp only [decide_eq_true_eq]
    exact ⟨h1, h2⟩
  · intro htgt h0 hle
    rcases lt_or_eq_of_le hle with hlt | heq
    · have hmne : mgr.migrations ≠ [] := by
        intro hnil
        have hz : mgr.latestVersion = 0 := by
          unfold MigrationManager.latestVersion
          rw [hnil]
          rfl
        rw [hz] at hlt
        exact absurd h0 (not_le.mpr hlt)
      obtain ⟨mlast, hmem, hver⟩ := latestVersion_mem mgr hmne
      have hin : (mlast.version, mlast.description) ∈ db'.records := by
        rw [hrec]
        refine List.mem_append_right _ ?_
        refine List.mem_map_of_mem _ (List.mem_filter.mpr ⟨hmem, ?_⟩)
        simp only [decide_eq_true_eq]
        refine ⟨by rw [hver]; exact hlt, ?_⟩
        rw [hver, htgt]
      have hub : ∀ r ∈ db'.records, r.1 ≤ mgr.latestVersion := by
        intro r hr
        rw [hrec] at hr
        rcases List.mem_append.mp hr with hr | hr
        · exact le_trans (le_currentVersion db r hr) hle
        · obtain ⟨m, hmf, hmr⟩ := List.mem_map.mp hr
          have hfp := (List.mem_filter.mp hmf).2
          simp only [decide_eq_true_eq] at hfp
          rw [← hmr]
          exact htgt ▸ hfp.2
      have hne' : db'.records ≠ [] := by
        intro hnil
        rw [hnil] at hin
        cases hin
      obtain ⟨r0, hr0, hcv⟩ := currentVersion_mem db' hne'
      refine le_antisymm ?_ ?_
      · rw [hcv]
        exact hub r0 hr0
      · have hlc := le_currentVersion db' (mlast.version, mlast.description) hin
        calc mgr.latestVersion = mlast.version := hver.symm
          _ ≤ _ := hlc
    · have hfe : mgr.migrations.filter (fun m =>
          decide (MigrationManager.currentVersion db < m.version
            ∧ m.version ≤ target)) = [] := by
        rw [List.filter_eq_nil_iff]
        intro m hm
        simp only [decide_eq_true_eq, not_and, not_le]
        intro hcm
        rw [htgt, ← heq]
        exact hcm
      rw [hfe] at hrec
      simp only [List.map_nil, List.append_nil] at hrec
      have hsame : MigrationManager.currentVersion db'
          = MigrationManager.currentVersion db := by
        unfold MigrationManager.currentVersion ensureMigrationTable
        rw [hrec]
      rw [hsame, heq]

/-- C1, witness: the two-unit set applied to an empty database reaches
the latest version. -/
theorem applyTo_applies_exactly_pending_witness :
    VersionsAscending mgrTwo
    ∧ mgrTwo.applyTo dbEmpty 2 = (⟨[(1, "one"), (2, "two")], 10⟩, none)
    ∧ MigrationManager.currentVersion
        (⟨[(1, "one"), (2, "two")], 10⟩ : DbState Nat) = mgrTwo.latestVersion := by
  have hs : VersionsAscending mgrTwo := by unfold VersionsAscending; decide
  have h : mgrTwo.applyTo dbEmpty 2 = (⟨[(1, "one"), (2, "two")], 10⟩, none) := rfl
  refine ⟨hs, h, ?_⟩
  exact (applyTo_applies_exactly_pending mgrTwo dbEmpty
    ⟨[(1, "one"), (2, "two")], 10⟩ 2 hs h).2.2.2 (by rfl) (by decide) (by decide)

/-! ## C2: failure in a unit rolls it back and halts the run -/

/-- C2. When `applyTo` raises, the selected ascending unit list splits
as `pre ++ mfail :: post`: every unit of `pre` committed (its record is
present and its up procedure ran, in order), the failing unit's
transaction rolled back (the returned state is exactly the state from
before it - its up procedure or bookkeeping insert failed on that very
state and it contributed no record), the raised `MigrationException`
carries the offending version and the underlying cause in its message,
and neither the failing unit nor any later unit left a record - no
further unit was attempted. -/
theorem applyTo_unit_failure_rolls_back_and_halts {α : Type}
    (mgr : MigrationManager α) (db db' : DbState α) (target : Int)
    (err : MigrationError) (hs : VersionsAscending mgr)
    (h : mgr.applyTo db target = (db', some err)) :
    ∃ pre mfail post,
      mgr.migrations.filter (fun m =>
          decide (MigrationManager.currentVersion db < m.version
            ∧ m.version ≤ target)) = pre ++ mfail :: post
      ∧ err.version = mfail.version
      ∧ (∃ cause, applyUnit mfail db' = .error cause
          ∧ err.message = "Migration failed: " ++ cause)
      ∧ db'.records = db.records ++ pre.map (fun m => (m.version, m.description))
      ∧ runUps pre db.user = some db'.user
      ∧ (∀ u ∈ mfail :: post, ∀ r ∈ db'.records, r.1 ≠ u.version) := by
  have hpf : (mgr.migrations.filter (fun m =>
      decide (MigrationManager.currentVersion db < m.version
        ∧ m.version ≤ target))).Pairwise (fun a b => a.version < b.version) :=
    List.Pairwise.sublist (List.filter_sublist mgr.migrations) hs
  simp only [MigrationManager.applyTo, ensureMigrationTable] at h
  rw [sortAscByVersion_of_pairwise hpf] at h
  obtain ⟨pre, mfail, post, hsplit, hpre, cause, hcause, herr⟩ := applyLoop_err h
  obtain ⟨hrec, hrun⟩ := applyLoop_ok hpre
  subst herr
  refine ⟨pre, mfail, post, hsplit, rfl, ⟨cause, hcause, rfl⟩, hrec, hrun, ?_⟩
  have hpf2 := hsplit ▸ hpf
  rw [List.pairwise_append] at hpf2
  obtain ⟨-, -, hcross⟩ := hpf2
  intro u hu r hr
  have hufilt : u ∈ mgr.migrations.filter (fun m =>
      decide (MigrationManager.currentVersion db < m.version
        ∧ m.version ≤ target)) := by
    rw [hsplit]
    exact List.mem_append_right pre hu
  have hup : MigrationManager.currentVersion db < u.version := by
    have hfp := (List.mem_filter.mp hufilt).2
    simp only [decide_eq_true_eq] at hfp
    exact hfp.1
  rw [hrec] at hr
  rcases List.mem_append.mp hr with hr | hr
  · exact ne_of_lt (lt_of_le_of_lt (le_currentVersion db r hr) hup)
  · obtain ⟨p, hp, hpr⟩ := List.mem_map.mp hr
    have hlt := hcross p hp u hu
    rw [← hpr]
    exact ne_of_lt hlt

/-- C2, witness: a set whose second unit's up procedure fails leaves
the first unit committed and reports version 2 with the cause. -/
theorem applyTo_unit_failure_rolls_back_and_halts_witness :
    VersionsAscending mgrFailingUp
    ∧ mgrFailingUp.applyTo dbEmpty 2
        = (⟨[(1, "one")], 1⟩, some ⟨"Migration failed: up exploded", 2⟩)
    ∧ ∃ pre mfail post,
        mgrFailingUp.migrations.filter (fun m =>
            decide (MigrationManager.currentVersion dbEmpty < m.version
              ∧ m.version ≤ 2)) = pre ++ mfail :: post
        ∧ (⟨"Migration failed: up exploded", 2⟩ : MigrationError).version
            = mfail.version := by
  have hs : VersionsAscending mgrFailingUp := by unfold VersionsAscending; decide
  have h : mgrFailingUp.applyTo dbEmpty 2
      = (⟨[(1, "one")], 1⟩, some ⟨"Migration failed: up exploded", 2⟩) := rfl
  obtain ⟨pre, mfail, post, h1, h2, -⟩ :=
    applyTo_unit_failure_rolls_back_and_halts mgrFailingUp dbEmpty
      ⟨[(1, "one")], 1⟩ 2 ⟨"Migration failed: up exploded", 2⟩ hs h
  exact ⟨hs, h, pre, mfail, post, h1, h2⟩

/-! ## C3: rollbackTo processes the window descending and halts on a
missing down procedure -/

/-- C3. `rollbackTo(conn, target)` is a no-op when
`target ≥ currentVersion(conn)`. Otherwise it processes exactly the
registered units with `target < version ≤ current`, in descending
version order, each unit's transaction running the down procedure and
deleting that version's bookkeeping record: a fully successful run
requires a down procedure on every selected unit, deletes exactly the
selected versions and runs the downs descending; a failing run splits
the descending list at the failing unit - the higher-version prefix's
removals are preserved, every other record is untouched, the error
carries the failing unit's version, and a unit lacking a down procedure
carries the "no rollback" message. -/
theorem rollbackTo_descending_with_halt {α : Type}
    (mgr : MigrationManager α) (db : DbState α) (target : Int)
    (hs : VersionsAscending mgr) :
    (target ≥ MigrationManager.currentVersion db →
      mgr.rollbackTo db target = (db, none))
    ∧ (∀ db', mgr.rollbackTo db target = (db', none) →
        (∀ m ∈ mgr.migrations.filter (fun m =>
            decide (target < m.version
              ∧ m.version ≤ MigrationManager.currentVersion db)),
          m.down ≠ none)
        ∧ db'.records = db.records.filter (fun r =>
            decide (r.1 ∉ (mgr.migrations.filter (fun m =>
              decide (target < m.version
                ∧ m.version ≤ MigrationManager.currentVersion db))).map
                  (fun m => m.version)))
        ∧ runDowns (mgr.migrations.filter (fun m =>
            decide (target < m.version
              ∧ m.version ≤ MigrationManager.currentVersion db))).reverse
            db.user = some db'.user)
    ∧ (∀ db' err, mgr.rollbackTo db target = (db', some err) →
        ∃ pre mfail post,
          (mgr.migrations.filter (fun m =>
            decide (target < m.version
              ∧ m.version ≤ MigrationManager.currentVersion db))).reverse
            = pre ++ mfail :: post
          ∧ (∀ u ∈ pre, u.down ≠ none)
          ∧ err.version = mfail.version
          ∧ (mfail.down = none →
              err.message = "Migration has no rollback function")
          ∧ db'.records = db.records.filter (fun r =>
              decide (r.1 ∉ pre.map (fun m => m.version)))
          ∧ runDowns pre db.user = some db'.user) := by
  have hpf : (mgr.migrations.filter (fun m =>
      decide (target < m.version
        ∧ m.version ≤ MigrationManager.currentVersion db))).Pairwise
      (fun a b => a.version < b.version) :=
    List.Pairwise.sublist (List.filter_sublist mgr.migrations) hs
  refine ⟨?_, ?_, ?_⟩
  · intro hge
    simp only [MigrationManager.rollbackTo]
    rw [if_pos hge]
  · intro db' h
    by_cases hge : target ≥ MigrationManager.currentVersion db
    · simp only [MigrationManager.rollbackTo] at h
      rw [if_pos hge] at h
      rw [Prod.mk.injEq] at h
      obtain ⟨h1, -⟩ := h
      subst h1
      have hfe : mgr.migrations.filter (fun m =>
          decide (target < m.version
            ∧ m.version ≤ MigrationManager.currentVersion db)) = [] := by
        rw [List.filter_eq_nil_iff]
        intro m hm
        simp only [decide_eq_true_eq, not_and, not_le]
        intro hcm
        exact lt_of_le_of_lt hge hcm
      rw [hfe]
      refine ⟨by simp, ?_, rfl⟩
      simp
    · simp only [MigrationManager.rollbackTo] at h
      rw [if_neg hge] at h
      rw [sortDescByVersion_of_pairwise hpf] at h
      obtain ⟨hdowns, hrecs, hruns⟩ := rollbackLoop_ok h
      refine ⟨fun m hm => hdowns m (List.mem_reverse.mpr hm), ?_, hruns⟩
      rw [hrecs]
      refine List.filter_congr ?_
      intro r _
      refine decide_eq_decide.mpr (not_congr ?_)
      simp [List.mem_map, List.mem_reverse]
  · intro db' err h
    by_cases hge : target ≥ MigrationManager.currentVersion db
    · simp only [MigrationManager.rollbackTo] at h
      rw [if_pos hge] at h
      rw [Prod.mk.injEq] at h
      obtain ⟨-, h2⟩ := h
      cases h2
    · simp only [MigrationManager.rollbackTo] at h
      rw [if_neg hge] at h
      rw [sortDescByVersion_of_pairwise hpf] at h
      obtain ⟨pre, mfail, post, hsplit, hpre, hver, hdisj⟩ := rollbackLoop_err h
      obtain ⟨hdowns, hrecs, hruns⟩ := rollbackLoop_ok hpre
      refine ⟨pre, mfail, post, hsplit, hdowns, hver, ?_, hrecs, hruns⟩
      rcases hdisj with ⟨-, hmsg⟩ | ⟨f, e, hsome, -, -⟩
      · exact fun _ => hmsg
      · intro hn
        exact absurd (hsome.symm.trans hn) (Option.some_ne_none f)

/-- C3, witness: rolling the three-record database back to version 0
with the version 1 unit lacking a down procedure removes versions 3 and
2, then halts at version 1 with the "no rollback" error, keeping the
version 1 record; rolling back to version 5 is a no-op. -/
theorem rollbackTo_descending_with_halt_witness :
    VersionsAscending mgrNoDownAtOne
    ∧ mgrNoDownAtOne.rollbackTo dbAtThree 5 = (dbAtThree, none)
    ∧ mgrNoDownAtOne.rollbackTo dbAtThree 0
        = (⟨[(1, "one")], 2⟩, some ⟨"Migration has no rollback function", 1⟩)
    ∧ ∃ pre mfail post,
        (mgrNoDownAtOne.migrations.filter (fun m =>
          decide ((0 : Int) < m.version
            ∧ m.version ≤ MigrationManager.currentVersion dbAtThree))).reverse
          = pre ++ mfail :: post
        ∧ (⟨"Migration has no rollback function", 1⟩ : MigrationError).version
            = mfail.version := by
  have hs : VersionsAscending mgrNoDownAtOne := by unfold VersionsAscending; decide
  have hnoop : mgrNoDownAtOne.rollbackTo dbAtThree 5 = (dbAtThree, none) :=
    (rollbackTo_descending_with_halt mgrNoDownAtOne dbAtThree 5 hs).1 (by decide)
  have herr : mgrNoDownAtOne.rollbackTo dbAtThree 0
      = (⟨[(1, "one")], 2⟩, some ⟨"Migration has no rollback function", 1⟩) := rfl
  obtain ⟨pre, mfail, post, h1, -, h3, -⟩ :=
    (rollbackTo_descending_with_halt mgrNoDownAtOne dbAtThree 0 hs).2.2
      ⟨[(1, "one")], 2⟩ ⟨"Migration has no rollback function", 1⟩ herr
  exact ⟨hs, hnoop, herr, pre, mfail, post, h1, h3⟩
